import Mathlib

/-!
Verification of the preference-comparisons reward-learning module
(src/imitation/algorithms/preference_comparisons.py).

The Python classes are shallowly embedded as Lean functions:

* `TrajectoryWithRew` mirrors the dataclass of the same name; its shape
  invariant (one more observation than actions and rewards) comes from the
  data-model section of the specification, since the defining module is not
  part of the sources here.
* `randomFragmenterCall` embeds `RandomFragmenter.__call__`.  The two internal
  random draws (weighted trajectory choice and uniform start offset) are
  passed in as oracle functions `pickTraj` and `pickStart`; hypotheses on
  them encode the guarantees of `random.choices` and `random.randint`.
* `syntheticGathererCall` embeds `SyntheticGatherer.__call__`, with the numpy
  bit generator modelled as a stream of uniform draws `ℕ → ℝ`.
* `PreferenceDataset.push` embeds the `push` method in state-passing style:
  it returns the dataset after the call together with an optional raised
  error message.
* `trainerProbability` embeds `CrossEntropyRewardTrainer._probability`.
* `trainLoop` embeds the dataset-relevant part of
  `PreferenceComparisons.train` (reward-model and agent updates never touch
  the dataset, so they have no dataset-visible effect to model).

Floating-point arithmetic is idealised over `ℝ`.
-/

/-- Mirror of `imitation.data.types.TrajectoryWithRew`: observations, actions,
optional per-step infos, per-step rewards, and the terminal flag. -/
structure TrajectoryWithRew where
  obs : List ℤ
  acts : List ℤ
  infos : Option (List ℤ)
  rews : List ℝ
  terminal : Bool

/-- Python `len(traj)`: the number of actions (= number of transitions). -/
def trajLen (t : TrajectoryWithRew) : ℕ := t.acts.length

/-- Modelled from the spec: the Trajectory shape invariant
`len(observations) == len(actions) + 1 == len(rewards) + 1` enforced by
`imitation.data.types` (not among the sources here). -/
def isValidTraj (t : TrajectoryWithRew) : Prop :=
  t.obs.length = t.acts.length + 1 ∧ t.rews.length = t.acts.length

/-- Python list slice `l[a:b]` (for indices with `a ≤ b`). -/
def pySlice (l : List α) (a b : ℕ) : List α := (l.drop a).take (b - a)

/-- The empty trajectory, used as a default value for list indexing. -/
def defaultTraj : TrajectoryWithRew := ⟨[], [], none, [], false⟩

/-- The fragment built in the loop body of `RandomFragmenter.__call__`
(lines 140-151): slices `[start : start + fragment_length]` of actions,
infos and rewards, one extra trailing observation, and a terminal flag that
is set only when the slice reaches the very end of a terminal trajectory. -/
def makeFragment (traj : TrajectoryWithRew) (start fragmentLength : ℕ) :
    TrajectoryWithRew :=
  { obs := pySlice traj.obs start (start + fragmentLength + 1)
    acts := pySlice traj.acts start (start + fragmentLength)
    infos := Option.map (fun l => pySlice l start (start + fragmentLength)) traj.infos
    rews := pySlice traj.rews start (start + fragmentLength)
    terminal := decide (start + fragmentLength = trajLen traj) && traj.terminal }

/-- Pairing of consecutive list elements; models
`iterator = iter(fragments); list(zip(iterator, iterator))` (lines 156-157). -/
def pairUp : List α → List (α × α)
  | a :: b :: rest => (a, b) :: pairUp rest
  | _ => []

/-- One fragment draw of `RandomFragmenter.__call__` (loop iteration `i`):
choose a trajectory from the kept ones via the weighted-choice oracle, choose
a start offset via the uniform oracle, and slice. -/
def drawFragment (fragmentLength : ℕ) (pickTraj pickStart : ℕ → ℕ)
    (kept : List TrajectoryWithRew) (i : ℕ) : TrajectoryWithRew :=
  makeFragment (kept.getD (pickTraj i) defaultTraj) (pickStart i) fragmentLength

/-- Log message for discarded too-short trajectories (lines 108-113). -/
def msgDiscarded : String :=
  "Discarded trajectories because they are shorter than the desired length."

/-- Warning for fewer available transitions than needed (lines 119-123). -/
def msgFewerTransitions : String :=
  "Fewer transitions available than needed for desired number of fragment pairs."

/-- Warning for available transitions below the warning threshold
(lines 124-136). -/
def msgBelowThreshold : String :=
  "Because we sample with replacement, a significant number of transitions are likely to appear multiple times."

/-- Error message raised when no trajectory is long enough (lines 102-106). -/
def msgNoLongTrajectories : String :=
  "No trajectories are long enough for the desired fragment length."

/-- The informational and warning messages emitted by
`RandomFragmenter.__call__` (lines 107-136), in emission order:
a note when trajectories were discarded, then at most one transition-count
warning, chosen exactly as the Python if/elif does. -/
def fragmenterLogs (fragmentLength numPairs warningThreshold numInput : ℕ)
    (kept : List TrajectoryWithRew) : List String :=
  let discardLogs := if kept.length < numInput then [msgDiscarded] else []
  let numTransitions := 2 * numPairs * fragmentLength
  let weightsSum := (kept.map trajLen).sum
  discardLogs ++
    (if weightsSum < numTransitions then [msgFewerTransitions]
     else if warningThreshold ≠ 0 ∧ weightsSum < warningThreshold * numTransitions then
       [msgBelowThreshold]
     else [])

/-- Embedding of `RandomFragmenter.__call__` (lines 92-157).  Returns either
the raised error message or the emitted log messages together with the list
of fragment pairs. -/
def randomFragmenterCall (fragmentLength numPairs warningThreshold : ℕ)
    (pickTraj pickStart : ℕ → ℕ) (trajectories : List TrajectoryWithRew) :
    Except String (List String × List (TrajectoryWithRew × TrajectoryWithRew)) :=
  let kept := trajectories.filter (fun t => decide (fragmentLength ≤ trajLen t))
  if kept.length = 0 then
    Except.error msgNoLongTrajectories
  else
    let logs := fragmenterLogs fragmentLength numPairs warningThreshold
      trajectories.length kept
    let fragments := (List.range (2 * numPairs)).map
      (drawFragment fragmentLength pickTraj pickStart kept)
    Except.ok (logs, pairUp fragments)

/-- Clipping of a value to the interval from `lo` to `hi`; models both
`np.clip(x, lo, hi)` and `th.clip(x, lo, hi)`, which compute
`min(hi, max(lo, x))`. -/
noncomputable def clip (x lo hi : ℝ) : ℝ := min hi (max lo x)

/-- Modelled from the spec: `imitation.data.rollout.compute_returns` (not among
the sources here), the optionally discounted return
`Σ_t discount^t * reward_t` of §4.2 step 1. -/
noncomputable def compute_returns (rews : List ℝ) (discountFactor : ℝ) : ℝ :=
  (List.zipWith (· * ·) ((List.range rews.length).map (discountFactor ^ ·)) rews).sum

/-- Embedding of `SyntheticGatherer.__call__` (lines 229-254).  The numpy
generator is modelled as a stream `rng : ℕ → ℝ` of uniform draws; a
Bernoulli(p) sample is 1 exactly when the next draw is below p.  The result
is the returned array together with the generator state after the call. -/
noncomputable def syntheticGathererCall (temperature discountFactor threshold : ℝ)
    (sample : Bool) (fragmentPairs : List (TrajectoryWithRew × TrajectoryWithRew))
    (rng : ℕ → ℝ) : List ℝ × (ℕ → ℝ) :=
  let returns1 := fragmentPairs.map (fun p => compute_returns p.1.rews discountFactor)
  let returns2 := fragmentPairs.map (fun p => compute_returns p.2.rews discountFactor)
  if temperature = 0 then
    (List.zipWith (fun a b => (Real.sign (a - b) + 1) / 2) returns1 returns2, rng)
  else
    let r1 := returns1.map (· / temperature)
    let r2 := returns2.map (· / temperature)
    let modelProbs := List.zipWith
      (fun a b => 1 / (1 + Real.exp (clip (b - a) (-threshold) threshold))) r1 r2
    if sample then
      (modelProbs.mapIdx (fun i p => if rng i < p then 1 else 0),
        fun i => rng (i + modelProbs.length))
    else
      (modelProbs, rng)

/-- The difference of returns computed by
`CrossEntropyRewardTrainer._probability` (lines 450-454): a plain sum of
elementwise reward differences for discount factor 1, and a sum weighted by
`discount_factor ** th.arange(len(rews1))` otherwise. -/
noncomputable def trainerReturnsDiff (discountFactor : ℝ) (rews1 rews2 : List ℝ) : ℝ :=
  if discountFactor = 1 then
    (List.zipWith (fun a b => a - b) rews2 rews1).sum
  else
    (List.zipWith (· * ·) ((List.range rews1.length).map (discountFactor ^ ·))
      (List.zipWith (fun a b => a - b) rews2 rews1)).sum

/-- Embedding of `CrossEntropyRewardTrainer._probability` (lines 434-462):
clip the difference of returns, take the first softmax component, and blend
with the label-noise probability. -/
noncomputable def trainerProbability (noiseProb discountFactor threshold : ℝ)
    (rews1 rews2 : List ℝ) : ℝ :=
  let returnsDiff := clip (trainerReturnsDiff discountFactor rews1 rews2)
    (-threshold) threshold
  let modelProbability := 1 / (1 + Real.exp returnsDiff)
  noiseProb * 0.5 + (1 - noiseProb) * modelProbability

/-- The probability formula the spec claims for the trainer (§4.4 step 2):
probability first fragment preferred `= 1/(1+exp(clip(return1 - return2)))`. -/
noncomputable def specClaimedTrainerProbability (discountFactor threshold : ℝ)
    (rews1 rews2 : List ℝ) : ℝ :=
  1 / (1 + Real.exp (clip
    (compute_returns rews1 discountFactor - compute_returns rews2 discountFactor)
    (-threshold) threshold))

/-- Numeric kind of a numpy array, as far as the dataset checks it. -/
inductive NpDType
  | float32
  | float64
deriving DecidableEq

/-- A one-dimensional numpy array: a numeric kind plus its entries. -/
structure NpArray where
  dtype : NpDType
  data : List ℝ

/-- Mirror of `PreferenceDataset` (lines 269-318): two fragment lists and the
stored preference values. -/
structure PreferenceDataset where
  fragments1 : List TrajectoryWithRew
  fragments2 : List TrajectoryWithRew
  preferences : List ℝ

/-- The dataset built by `PreferenceDataset.__init__` (lines 283-286). -/
def PreferenceDataset.empty : PreferenceDataset := ⟨[], [], []⟩

/-- Python `len(dataset)` (lines 316-318). -/
def PreferenceDataset.size (ds : PreferenceDataset) : ℕ := ds.fragments1.length

/-- The invariant asserted by `PreferenceDataset.__len__` (line 317). -/
def PreferenceDataset.wf (ds : PreferenceDataset) : Prop :=
  ds.fragments1.length = ds.fragments2.length ∧
    ds.fragments1.length = ds.preferences.length

/-- Python `dataset[i]` (lines 313-314). -/
noncomputable def PreferenceDataset.getItem (ds : PreferenceDataset) (i : ℕ) :
    (TrajectoryWithRew × TrajectoryWithRew) × ℝ :=
  ((ds.fragments1.getD i defaultTraj, ds.fragments2.getD i defaultTraj),
    ds.preferences.getD i 0)

/-- Error message of `zip(*fragments)` on an empty sequence (line 300). -/
def msgUnpack : String := "not enough values to unpack"

/-- Error message for a preference shape mismatch (lines 301-305). -/
def msgShape : String := "Unexpected preferences shape"

/-- Error message for a wrong numeric kind (lines 306-307). -/
def msgDtype : String := "preferences should have dtype float32"

/-- Embedding of `PreferenceDataset.push` (lines 288-311) in state-passing
style: the result is the dataset after the call plus an optional raised error
message.  `zip(*fragments)` on line 300 raises before any check when
`fragments` is empty; the shape test compares the (1-dimensional) array
length with the number of pairs; all mutation happens after every check. -/
def PreferenceDataset.push (ds : PreferenceDataset)
    (fragments : List (TrajectoryWithRew × TrajectoryWithRew))
    (preferences : NpArray) : PreferenceDataset × Option String :=
  if fragments.length = 0 then
    (ds, some msgUnpack)
  else if preferences.data.length ≠ fragments.length then
    (ds, some msgShape)
  else if preferences.dtype ≠ NpDType.float32 then
    (ds, some msgDtype)
  else
    ({ fragments1 := ds.fragments1 ++ fragments.map Prod.fst
       fragments2 := ds.fragments2 ++ fragments.map Prod.snd
       preferences := ds.preferences ++ preferences.data }, none)

/-- Per-iteration inputs of the orchestrator loop: the trajectories returned
by `trajectory_generator.sample` and the fragmenter random-draw oracles for
that iteration. -/
structure IterationInput where
  trajs : List TrajectoryWithRew
  pickTraj : ℕ → ℕ
  pickStart : ℕ → ℕ

/-- Precondition on one iteration of inputs: some sampled trajectory is long
enough for the fragmenter. -/
def validIterInput (fragmentLength : ℕ) (inp : IterationInput) : Prop :=
  ∃ t ∈ inp.trajs, fragmentLength ≤ trajLen t

/-- One iteration of `PreferenceComparisons.train` (lines 574-591), restricted
to its dataset-visible effects: fragment the sampled trajectories, gather
synthetic preferences (the gatherer always produces a float32 array), and
push onto the dataset.  Reward-model training and agent training read the
dataset but never modify it. -/
noncomputable def trainIteration (fragmentLength numPairs warningThreshold : ℕ)
    (temperature discountFactor threshold : ℝ) (sample : Bool)
    (inp : IterationInput) (rng : ℕ → ℝ) (ds : PreferenceDataset) :
    (PreferenceDataset × (ℕ → ℝ)) × Option String :=
  match randomFragmenterCall fragmentLength numPairs warningThreshold
      inp.pickTraj inp.pickStart inp.trajs with
  | Except.error e => ((ds, rng), some e)
  | Except.ok res =>
      let gathered := syntheticGathererCall temperature discountFactor threshold
        sample res.2 rng
      let pushed := ds.push res.2 ⟨NpDType.float32, gathered.1⟩
      ((pushed.1, gathered.2), pushed.2)

/-- The outer loop of `PreferenceComparisons.train` (lines 574-591), iterated
`n` times from dataset `ds`; a raised error aborts the loop. -/
noncomputable def trainLoop (fragmentLength numPairs warningThreshold : ℕ)
    (temperature discountFactor threshold : ℝ) (sample : Bool)
    (inputs : ℕ → IterationInput) (rng : ℕ → ℝ) (ds : PreferenceDataset) :
    ℕ → (PreferenceDataset × (ℕ → ℝ)) × Option String
  | 0 => ((ds, rng), none)
  | n + 1 =>
    match trainIteration fragmentLength numPairs warningThreshold
        temperature discountFactor threshold sample (inputs 0) rng ds with
    | ((ds2, rng2), none) =>
        trainLoop fragmentLength numPairs warningThreshold temperature
          discountFactor threshold sample (fun i => inputs (i + 1)) rng2 ds2 n
    | ((ds2, rng2), some e) => ((ds2, rng2), some e)

/-- Dataset extension: every stored list of `d1` is an initial segment of the
corresponding list of `d2`. -/
def dsExtends (d2 d1 : PreferenceDataset) : Prop :=
  (∃ e, d2.fragments1 = d1.fragments1 ++ e) ∧
    (∃ e, d2.fragments2 = d1.fragments2 ++ e) ∧
    (∃ e, d2.preferences = d1.preferences ++ e)

/-- A well-shaped output fragment: correct action, reward and observation
counts, and equal to a contiguous slice of one of the input trajectories
taken at a start offset that keeps the slice inside the trajectory. -/
def goodFragment (trajectories : List TrajectoryWithRew) (fragmentLength : ℕ)
    (frag : TrajectoryWithRew) : Prop :=
  frag.acts.length = fragmentLength ∧ frag.rews.length = fragmentLength ∧
  frag.obs.length = fragmentLength + 1 ∧
  ∃ traj ∈ trajectories, ∃ start, start + fragmentLength ≤ trajLen traj ∧
    frag = makeFragment traj start fragmentLength

/-- A concrete one-transition trajectory used in witnesses. -/
def demoTraj : TrajectoryWithRew := ⟨[0, 0], [0], none, [1], true⟩

/-! ### Helper lemmas about list sums -/

theorem zipWith_sub_sum : ∀ (ys xs : List ℝ), ys.length = xs.length →
    (List.zipWith (fun a b => a - b) ys xs).sum = ys.sum - xs.sum := by
  intro ys
  induction ys with
  | nil => intro xs h; cases xs <;> simp_all
  | cons y ys ih =>
    intro xs h
    cases xs with
    | nil => simp at h
    | cons x xs =>
      simp only [List.zipWith_cons_cons, List.sum_cons]
      rw [ih xs (by simpa using h)]
      ring

theorem sum_zipWith_mul_sub : ∀ (w ys xs : List ℝ), ys.length = xs.length →
    (List.zipWith (· * ·) w (List.zipWith (fun a b => a - b) ys xs)).sum =
      (List.zipWith (· * ·) w ys).sum - (List.zipWith (· * ·) w xs).sum := by
  intro w
  induction w with
  | nil => intro ys xs _; simp
  | cons a w ih =>
    intro ys xs h
    cases ys with
    | nil => cases xs <;> simp_all
    | cons y ys =>
      cases xs with
      | nil => simp at h
      | cons x xs =>
        simp only [List.zipWith_cons_cons, List.sum_cons]
        rw [ih ys xs (by simpa using h)]
        ring

theorem zipWith_mul_replicate_one : ∀ (k : ℕ) (l : List ℝ), l.length ≤ k →
    (List.zipWith (· * ·) (List.replicate k (1 : ℝ)) l).sum = l.sum := by
  intro k
  induction k with
  | zero => intro l h; cases l <;> simp_all
  | succ k ih =>
    intro l h
    cases l with
    | nil => simp
    | cons x l =>
      simp only [List.replicate_succ, List.zipWith_cons_cons, List.sum_cons, one_mul]
      rw [ih l (by simpa using h)]

/-- With discount factor 1 the modelled return is the plain reward sum. -/
theorem compute_returns_one (l : List ℝ) : compute_returns l 1 = l.sum := by
  unfold compute_returns
  simp only [one_pow, List.map_const', List.length_range]
  exact zipWith_mul_replicate_one l.length l le_rfl

/-- The trainer returns-difference equals the difference of the modelled
(discounted) returns, for reward lists of equal length. -/
theorem trainerReturnsDiff_eq (discountFactor : ℝ) (rews1 rews2 : List ℝ)
    (h : rews1.length = rews2.length) :
    trainerReturnsDiff discountFactor rews1 rews2 =
      compute_returns rews2 discountFactor - compute_returns rews1 discountFactor := by
  unfold trainerReturnsDiff
  by_cases hd : discountFactor = 1
  · subst hd
    rw [if_pos rfl, compute_returns_one, compute_returns_one,
      zipWith_sub_sum rews2 rews1 h.symm]
  · rw [if_neg hd]
    unfold compute_returns
    rw [h, sum_zipWith_mul_sub _ rews2 rews1 h.symm]

/-! ### Helper lemmas about clipping and the logistic function -/

theorem clip_neg (x t : ℝ) (ht : 0 ≤ t) : clip (-x) (-t) t = -clip x (-t) t := by
  unfold clip
  simp only [min_def, max_def]
  split_ifs <;> linarith

theorem one_div_one_add_exp_neg (c : ℝ) :
    1 / (1 + Real.exp (-c)) = 1 - 1 / (1 + Real.exp c) := by
  have h1 : (0 : ℝ) < 1 + Real.exp c := by positivity
  have h2 : (0 : ℝ) < 1 + Real.exp (-c) := by positivity
  rw [Real.exp_neg] at h2 ⊢
  have h3 : Real.exp c ≠ 0 := (Real.exp_pos c).ne'
  field_simp
  ring

theorem one_div_one_add_exp_pos (c : ℝ) : 0 < 1 / (1 + Real.exp c) := by
  positivity

theorem one_div_one_add_exp_lt_one (c : ℝ) : 1 / (1 + Real.exp c) < 1 := by
  have h1 : (0 : ℝ) < 1 + Real.exp c := by positivity
  rw [div_lt_one h1]
  linarith [Real.exp_pos c]

/-! ### C1: the sign convention of the trainer probability -/

/-- C1, counterexample: at rewards `[1]` versus `[0]` (discount 1, threshold
50, no label noise) the trainer computes `1/(1+exp(-1))`, not the
`1/(1+exp(clip(return1 - return2))) = 1/(1+exp(1))` that the claim states. -/
theorem trainer_probability_order_counterexample :
    trainerProbability 0 1 50 [(1 : ℝ)] [(0 : ℝ)] ≠
      specClaimedTrainerProbability 1 50 [(1 : ℝ)] [(0 : ℝ)] := by
  have e1 : trainerProbability 0 1 50 [(1 : ℝ)] [(0 : ℝ)] =
      1 / (1 + Real.exp (-1)) := by
    simp only [trainerProbability, trainerReturnsDiff, clip]
    norm_num [min_def, max_def]
  have e2 : specClaimedTrainerProbability 1 50 [(1 : ℝ)] [(0 : ℝ)] =
      1 / (1 + Real.exp 1) := by
    simp only [specClaimedTrainerProbability, compute_returns, clip]
    norm_num [min_def, max_def]
  rw [e1, e2]
  have h1 : (0 : ℝ) < 1 + Real.exp (-1) := by positivity
  have hexp : Real.exp (-1) < Real.exp 1 := Real.exp_lt_exp.mpr (by norm_num)
  have hlt : 1 / (1 + Real.exp 1) < 1 / (1 + Real.exp (-1)) :=
    one_div_lt_one_div_of_lt h1 (by linarith)
  exact (ne_of_lt hlt).symm

/-- C1 (amended): for equal-length reward lists and no label noise, the
trainer predicted probability that fragment 1 is preferred uses the same clip
threshold and softmax form as the synthetic gatherer and the same argument
order, `returns2 - returns1`, inside the sigmoid: it equals
`1/(1+exp(clip(return2 - return1)))` where the returns are the (optionally
discounted) sums of the model-predicted rewards. -/
theorem trainer_probability_matches_gatherer_order
    (discountFactor threshold : ℝ) (rews1 rews2 : List ℝ)
    (h : rews1.length = rews2.length) :
    trainerProbability 0 discountFactor threshold rews1 rews2 =
      1 / (1 + Real.exp (clip
        (compute_returns rews2 discountFactor - compute_returns rews1 discountFactor)
        (-threshold) threshold)) := by
  simp only [trainerProbability]
  rw [trainerReturnsDiff_eq discountFactor rews1 rews2 h]
  ring

/-- C1, witness for the amended theorem at rewards `[1]` and `[0]`. -/
theorem trainer_probability_matches_gatherer_order_witness :
    trainerProbability 0 1 50 [(1 : ℝ)] [(0 : ℝ)] =
      1 / (1 + Real.exp (clip (compute_returns [(0 : ℝ)] 1 - compute_returns [(1 : ℝ)] 1)
        (-50) 50)) :=
  trainer_probability_matches_gatherer_order 1 50 [(1 : ℝ)] [(0 : ℝ)] rfl

/-! ### C2: swapping the fragments complements the probability -/

/-- C2: for every pair of equal-length per-transition reward lists, every
label-noise probability in `[0,1]` and every nonnegative clip threshold, the
trainer predicted preference probability satisfies
`predicted_prob(frag1, frag2) = 1 - predicted_prob(frag2, frag1)`:
the clip and the label-noise blend both commute with the swap. -/
theorem predicted_probability_swap_complement
    (noiseProb discountFactor threshold : ℝ) (rews1 rews2 : List ℝ)
    (hlen : rews1.length = rews2.length) (_h0 : 0 ≤ noiseProb)
    (_h1 : noiseProb ≤ 1) (ht : 0 ≤ threshold) :
    trainerProbability noiseProb discountFactor threshold rews1 rews2 =
      1 - trainerProbability noiseProb discountFactor threshold rews2 rews1 := by
  simp only [trainerProbability]
  rw [trainerReturnsDiff_eq discountFactor rews1 rews2 hlen,
    trainerReturnsDiff_eq discountFactor rews2 rews1 hlen.symm]
  have hneg : compute_returns rews1 discountFactor - compute_returns rews2 discountFactor =
      -(compute_returns rews2 discountFactor - compute_returns rews1 discountFactor) := by
    ring
  rw [hneg, clip_neg _ threshold ht, one_div_one_add_exp_neg]
  ring

/-- C2, witness at rewards `[1, 2]` versus `[0, 1]` with noise 0.3. -/
theorem predicted_probability_swap_complement_witness :
    trainerProbability 0.3 1 50 [(1 : ℝ), 2] [(0 : ℝ), 1] =
      1 - trainerProbability 0.3 1 50 [(0 : ℝ), 1] [(1 : ℝ), 2] :=
  predicted_probability_swap_complement 0.3 1 50 [(1 : ℝ), 2] [(0 : ℝ), 1] rfl
    (by norm_num) (by norm_num) (by norm_num)

/-! ### C6: the gatherer with temperature 0 -/

/-- C6: with temperature 0 the synthetic gatherer is deterministic on every
batch: each output is exactly 1 when `return1 > return2`, exactly 0 when
`return1 < return2` and exactly 1/2 on ties, and the random stream is
returned untouched regardless of the `sample` flag. -/
theorem synthetic_gatherer_temperature_zero
    (discountFactor threshold : ℝ) (sample : Bool)
    (fragmentPairs : List (TrajectoryWithRew × TrajectoryWithRew)) (rng : ℕ → ℝ) :
    syntheticGathererCall 0 discountFactor threshold sample fragmentPairs rng =
      (fragmentPairs.map (fun p =>
        if compute_returns p.2.rews discountFactor <
            compute_returns p.1.rews discountFactor then 1
        else if compute_returns p.1.rews discountFactor <
            compute_returns p.2.rews discountFactor then 0
        else 1 / 2), rng) := by
  unfold syntheticGathererCall
  rw [if_pos rfl]
  congr 1
  simp only [List.zipWith_map_left, List.zipWith_map_right, List.zipWith_same]
  congr 1
  funext p
  rcases lt_trichotomy (compute_returns p.1.rews discountFactor)
      (compute_returns p.2.rews discountFactor) with h | h | h
  · rw [Real.sign_of_neg (by linarith), if_neg (by linarith), if_pos h]
    norm_num
  · rw [h, sub_self, Real.sign_zero, if_neg (by linarith), if_neg (by linarith)]
    norm_num
  · rw [Real.sign_of_pos (by linarith), if_pos h]
    norm_num

/-! ### C7: the gatherer with positive temperature and sample off -/

/-- C7: with positive temperature and `sample = False` the gatherer returns,
for every fragment pair, `1/(1+exp(diff))` where
`diff = (return2 - return1)/temperature` clipped to the threshold interval,
and every returned probability lies strictly between 0 and 1. -/
theorem synthetic_gatherer_probability_form
    (temperature discountFactor threshold : ℝ) (hT : 0 < temperature)
    (fragmentPairs : List (TrajectoryWithRew × TrajectoryWithRew)) (rng : ℕ → ℝ) :
    (syntheticGathererCall temperature discountFactor threshold false
        fragmentPairs rng).1 =
      fragmentPairs.map (fun p => 1 / (1 + Real.exp (clip
        ((compute_returns p.2.rews discountFactor -
          compute_returns p.1.rews discountFactor) / temperature)
        (-threshold) threshold))) ∧
    ∀ x ∈ (syntheticGathererCall temperature discountFactor threshold false
        fragmentPairs rng).1, 0 < x ∧ x < 1 := by
  have E : (syntheticGathererCall temperature discountFactor threshold false
      fragmentPairs rng).1 =
      fragmentPairs.map (fun p => 1 / (1 + Real.exp (clip
        ((compute_returns p.2.rews discountFactor -
          compute_returns p.1.rews discountFactor) / temperature)
        (-threshold) threshold))) := by
    unfold syntheticGathererCall
    rw [if_neg hT.ne']
    simp only [List.map_map, Bool.false_eq_true, if_false, Function.comp_def,
      List.zipWith_map_left, List.zipWith_map_right, List.zipWith_same]
    congr 1
    funext p
    rw [div_sub_div_same]
  refine ⟨E, ?_⟩
  intro x hx
  rw [E] at hx
  obtain ⟨p, _, rfl⟩ := List.mem_map.mp hx
  exact ⟨one_div_one_add_exp_pos _, one_div_one_add_exp_lt_one _⟩

/-! ### Fragmenter helper lemmas -/

theorem pairUp_length : ∀ (l : List α), (pairUp l).length = l.length / 2
  | [] => by simp [pairUp]
  | [_] => by simp [pairUp]
  | _ :: _ :: rest => by
    simp only [pairUp, List.length_cons, pairUp_length rest]
    omega

theorem pairUp_mem : ∀ (l : List α) (p : α × α), p ∈ pairUp l → p.1 ∈ l ∧ p.2 ∈ l
  | a :: b :: rest, p, h => by
    simp only [pairUp, List.mem_cons] at h
    rcases h with h | h
    · subst h; simp
    · have hr := pairUp_mem rest p h
      exact ⟨List.mem_cons_of_mem _ (List.mem_cons_of_mem _ hr.1),
        List.mem_cons_of_mem _ (List.mem_cons_of_mem _ hr.2)⟩
  | [], p, h => by simp [pairUp] at h
  | [a], p, h => by simp [pairUp] at h

/-- When at least one trajectory is long enough, the fragmenter does not
raise: it returns its logs and the paired-up drawn fragments. -/
theorem randomFragmenterCall_ok (fragmentLength numPairs warningThreshold : ℕ)
    (pickTraj pickStart : ℕ → ℕ) (trajectories : List TrajectoryWithRew)
    (hex : ∃ t ∈ trajectories, fragmentLength ≤ trajLen t) :
    randomFragmenterCall fragmentLength numPairs warningThreshold pickTraj pickStart
        trajectories =
      Except.ok (fragmenterLogs fragmentLength numPairs warningThreshold
          trajectories.length
          (trajectories.filter (fun t => decide (fragmentLength ≤ trajLen t))),
        pairUp ((List.range (2 * numPairs)).map
          (drawFragment fragmentLength pickTraj pickStart
            (trajectories.filter (fun t => decide (fragmentLength ≤ trajLen t)))))) := by
  obtain ⟨t, ht, hlen⟩ := hex
  have hmem : t ∈ trajectories.filter (fun t => decide (fragmentLength ≤ trajLen t)) :=
    List.mem_filter.mpr ⟨ht, by simpa using hlen⟩
  have hne : (trajectories.filter
      (fun t => decide (fragmentLength ≤ trajLen t))).length ≠ 0 := by
    intro h0
    rw [List.length_eq_zero] at h0
    rw [h0] at hmem
    exact absurd hmem (List.not_mem_nil t)
  unfold randomFragmenterCall
  rw [if_neg hne]

theorem pairUp_map_range_length (n : ℕ) (f : ℕ → α) :
    (pairUp ((List.range (2 * n)).map f)).length = n := by
  rw [pairUp_length, List.length_map, List.length_range]
  omega

/-- Each member of the paired-up fragment list is a fragment drawn at some
index below `2 * numPairs`. -/
theorem mem_fragmenter_pairs {fragmentLength numPairs : ℕ}
    {pickTraj pickStart : ℕ → ℕ} {kept : List TrajectoryWithRew}
    {pr : TrajectoryWithRew × TrajectoryWithRew}
    (h : pr ∈ pairUp ((List.range (2 * numPairs)).map
      (drawFragment fragmentLength pickTraj pickStart kept))) :
    (∃ i < 2 * numPairs,
      pr.1 = drawFragment fragmentLength pickTraj pickStart kept i) ∧
    (∃ i < 2 * numPairs,
      pr.2 = drawFragment fragmentLength pickTraj pickStart kept i) := by
  have hm := pairUp_mem _ pr h
  constructor
  · obtain ⟨i, hi, heq⟩ := List.mem_map.mp hm.1
    exact ⟨i, List.mem_range.mp hi, heq.symm⟩
  · obtain ⟨i, hi, heq⟩ := List.mem_map.mp hm.2
    exact ⟨i, List.mem_range.mp hi, heq.symm⟩

/-- Shape of a fragment cut from a valid trajectory at a valid offset. -/
theorem makeFragment_shape (traj : TrajectoryWithRew) (start fragmentLength : ℕ)
    (hv : isValidTraj traj) (hs : start + fragmentLength ≤ trajLen traj) :
    (makeFragment traj start fragmentLength).acts.length = fragmentLength ∧
    (makeFragment traj start fragmentLength).rews.length = fragmentLength ∧
    (makeFragment traj start fragmentLength).obs.length = fragmentLength + 1 := by
  obtain ⟨hobs, hrews⟩ := hv
  simp only [trajLen] at hs
  simp only [makeFragment, pySlice, List.length_take, List.length_drop]
  omega

/-- The terminal flag of a cut fragment, unfolded to a proposition. -/
theorem makeFragment_terminal (traj : TrajectoryWithRew) (start fragmentLength : ℕ) :
    ((makeFragment traj start fragmentLength).terminal = true) ↔
      (start + fragmentLength = trajLen traj ∧ traj.terminal = true) := by
  simp [makeFragment]

/-! ### C3: fragment counts and shapes -/

/-- C3: whenever the input trajectories are nonempty, all long enough, and
well shaped, and the random oracles respect the ranges guaranteed by
`random.choices` and `random.randint`, `RandomFragmenter.__call__` returns
exactly `num_pairs` pairs, and every fragment in them has exactly
`fragment_length` actions and rewards, `fragment_length + 1` observations,
and is the contiguous slice of a single input trajectory starting at an
offset with `start + fragment_length ≤ len(traj)`. -/
theorem random_fragmenter_shapes
    (fragmentLength numPairs warningThreshold : ℕ) (pickTraj pickStart : ℕ → ℕ)
    (trajectories : List TrajectoryWithRew)
    (hne : trajectories ≠ [])
    (hlong : ∀ t ∈ trajectories, fragmentLength ≤ trajLen t)
    (hvalid : ∀ t ∈ trajectories, isValidTraj t)
    (hpt : ∀ i < 2 * numPairs, pickTraj i < trajectories.length)
    (hps : ∀ i < 2 * numPairs, pickStart i ≤
      trajLen (trajectories.getD (pickTraj i) defaultTraj) - fragmentLength) :
    ∃ logs pairs,
      randomFragmenterCall fragmentLength numPairs warningThreshold pickTraj
        pickStart trajectories = Except.ok (logs, pairs) ∧
      pairs.length = numPairs ∧
      ∀ pr ∈ pairs, goodFragment trajectories fragmentLength pr.1 ∧
        goodFragment trajectories fragmentLength pr.2 := by
  have hfilter : trajectories.filter (fun t => decide (fragmentLength ≤ trajLen t)) =
      trajectories :=
    List.filter_eq_self.mpr (fun a ha => by simpa using hlong a ha)
  obtain ⟨t0, ht0⟩ := List.exists_mem_of_ne_nil trajectories hne
  have hcall := randomFragmenterCall_ok fragmentLength numPairs warningThreshold
    pickTraj pickStart trajectories ⟨t0, ht0, hlong t0 ht0⟩
  rw [hfilter] at hcall
  refine ⟨_, _, hcall, pairUp_map_range_length numPairs _, ?_⟩
  intro pr hpr
  have hdraw := mem_fragmenter_pairs hpr
  have key : ∀ i < 2 * numPairs,
      goodFragment trajectories fragmentLength
        (drawFragment fragmentLength pickTraj pickStart trajectories i) := by
    intro i hi
    have htm : trajectories.getD (pickTraj i) defaultTraj ∈ trajectories := by
      rw [List.getD_eq_getElem trajectories defaultTraj (hpt i hi)]
      exact List.getElem_mem _
    have hstart : pickStart i + fragmentLength ≤
        trajLen (trajectories.getD (pickTraj i) defaultTraj) := by
      have h1 := hps i hi
      have h2 := hlong _ htm
      omega
    have hshape := makeFragment_shape _ (pickStart i) fragmentLength
      (hvalid _ htm) hstart
    exact ⟨hshape.1, hshape.2.1, hshape.2.2,
      trajectories.getD (pickTraj i) defaultTraj, htm, pickStart i, hstart, rfl⟩
  obtain ⟨⟨i1, hi1, he1⟩, ⟨i2, hi2, he2⟩⟩ := hdraw
  exact ⟨he1 ▸ key i1 hi1, he2 ▸ key i2 hi2⟩

/-- C3, witness: one trajectory of length 1, fragment length 1, one pair. -/
theorem random_fragmenter_shapes_witness :
    ∃ logs pairs,
      randomFragmenterCall 1 1 10 (fun _ => 0) (fun _ => 0) [demoTraj] =
        Except.ok (logs, pairs) ∧
      pairs.length = 1 ∧
      ∀ pr ∈ pairs, goodFragment [demoTraj] 1 pr.1 ∧ goodFragment [demoTraj] 1 pr.2 :=
  random_fragmenter_shapes 1 1 10 (fun _ => 0) (fun _ => 0) [demoTraj]
    (by simp)
    (by intro t ht; simp only [List.mem_singleton] at ht; subst ht; simp [demoTraj, trajLen])
    (by intro t ht; simp only [List.mem_singleton] at ht; subst ht
        constructor <;> simp [demoTraj])
    (by intro i _; simp)
    (by intro i _; simp [demoTraj, trajLen])

/-! ### C4: the terminal flag of produced fragments -/

/-- C4: every fragment produced by `RandomFragmenter.__call__` is a slice of
some input trajectory, and its terminal flag is true exactly when the slice
end `start + fragment_length` equals the source trajectory length and the
source trajectory itself was terminal; in every other case, including
interior slices, the flag is false. -/
theorem random_fragmenter_terminal_flag
    (fragmentLength numPairs warningThreshold : ℕ) (pickTraj pickStart : ℕ → ℕ)
    (trajectories : List TrajectoryWithRew)
    (hne : trajectories ≠ [])
    (hlong : ∀ t ∈ trajectories, fragmentLength ≤ trajLen t)
    (hpt : ∀ i < 2 * numPairs, pickTraj i < trajectories.length) :
    ∃ logs pairs,
      randomFragmenterCall fragmentLength numPairs warningThreshold pickTraj
        pickStart trajectories = Except.ok (logs, pairs) ∧
      ∀ pr ∈ pairs,
        (∃ traj ∈ trajectories, ∃ start,
          pr.1 = makeFragment traj start fragmentLength ∧
          (pr.1.terminal = true ↔
            start + fragmentLength = trajLen traj ∧ traj.terminal = true)) ∧
        (∃ traj ∈ trajectories, ∃ start,
          pr.2 = makeFragment traj start fragmentLength ∧
          (pr.2.terminal = true ↔
            start + fragmentLength = trajLen traj ∧ traj.terminal = true)) := by
  have hfilter : trajectories.filter (fun t => decide (fragmentLength ≤ trajLen t)) =
      trajectories :=
    List.filter_eq_self.mpr (fun a ha => by simpa using hlong a ha)
  obtain ⟨t0, ht0⟩ := List.exists_mem_of_ne_nil trajectories hne
  have hcall := randomFragmenterCall_ok fragmentLength numPairs warningThreshold
    pickTraj pickStart trajectories ⟨t0, ht0, hlong t0 ht0⟩
  rw [hfilter] at hcall
  refine ⟨_, _, hcall, ?_⟩
  intro pr hpr
  have hdraw := mem_fragmenter_pairs hpr
  have key : ∀ i < 2 * numPairs, ∃ traj ∈ trajectories, ∃ start,
      drawFragment fragmentLength pickTraj pickStart trajectories i =
        makeFragment traj start fragmentLength ∧
      ((drawFragment fragmentLength pickTraj pickStart trajectories i).terminal = true ↔
        start + fragmentLength = trajLen traj ∧ traj.terminal = true) := by
    intro i hi
    have htm : trajectories.getD (pickTraj i) defaultTraj ∈ trajectories := by
      rw [List.getD_eq_getElem trajectories defaultTraj (hpt i hi)]
      exact List.getElem_mem _
    exact ⟨trajectories.getD (pickTraj i) defaultTraj, htm, pickStart i, rfl,
      makeFragment_terminal _ _ _⟩
  obtain ⟨⟨i1, hi1, he1⟩, ⟨i2, hi2, he2⟩⟩ := hdraw
  exact ⟨he1 ▸ key i1 hi1, he2 ▸ key i2 hi2⟩

/-- C4, witness: one trajectory of length 1, fragment length 1, one pair. -/
theorem random_fragmenter_terminal_flag_witness :
    ∃ logs pairs,
      randomFragmenterCall 1 1 10 (fun _ => 0) (fun _ => 0) [demoTraj] =
        Except.ok (logs, pairs) ∧
      ∀ pr ∈ pairs,
        (∃ traj ∈ [demoTraj], ∃ start,
          pr.1 = makeFragment traj start 1 ∧
          (pr.1.terminal = true ↔ start + 1 = trajLen traj ∧ traj.terminal = true)) ∧
        (∃ traj ∈ [demoTraj], ∃ start,
          pr.2 = makeFragment traj start 1 ∧
          (pr.2.terminal = true ↔ start + 1 = trajLen traj ∧ traj.terminal = true)) :=
  random_fragmenter_terminal_flag 1 1 10 (fun _ => 0) (fun _ => 0) [demoTraj]
    (by simp)
    (by intro t ht; simp only [List.mem_singleton] at ht; subst ht; simp [demoTraj, trajLen])
    (by intro i _; simp)

/-! ### C5: the error is raised only for the no-long-trajectory case -/

/-- C5: `RandomFragmenter.__call__` raises exactly when no input trajectory
reaches the fragment length (after the too-short ones are discarded); when
some trajectory is long enough it never raises, and the
insufficient-transitions condition merely places a warning in the logs. -/
theorem random_fragmenter_error_behavior
    (fragmentLength numPairs warningThreshold : ℕ) (pickTraj pickStart : ℕ → ℕ)
    (trajectories : List TrajectoryWithRew) :
    ((∀ t ∈ trajectories, trajLen t < fragmentLength) →
      randomFragmenterCall fragmentLength numPairs warningThreshold pickTraj
        pickStart trajectories = Except.error msgNoLongTrajectories) ∧
    ((∃ t ∈ trajectories, fragmentLength ≤ trajLen t) →
      ∃ logs pairs,
        randomFragmenterCall fragmentLength numPairs warningThreshold pickTraj
          pickStart trajectories = Except.ok (logs, pairs) ∧
        (((trajectories.filter (fun t => decide (fragmentLength ≤ trajLen t))).map
            trajLen).sum < 2 * numPairs * fragmentLength →
          msgFewerTransitions ∈ logs)) := by
  constructor
  · intro hshort
    have hfilter : trajectories.filter (fun t => decide (fragmentLength ≤ trajLen t)) =
        [] :=
      List.filter_eq_nil_iff.mpr (fun a ha => by simpa using not_le.mpr (hshort a ha))
    unfold randomFragmenterCall
    rw [hfilter]
    rfl
  · intro hex
    have hcall := randomFragmenterCall_ok fragmentLength numPairs warningThreshold
      pickTraj pickStart trajectories hex
    refine ⟨_, _, hcall, ?_⟩
    intro hsum
    simp only [fragmenterLogs, if_pos hsum]
    exact List.mem_append_right _ (List.mem_singleton.mpr rfl)

/-- C5, witness: the same single-transition trajectory makes the call raise
for fragment length 2 and succeed with a logged warning for length 1. -/
theorem random_fragmenter_error_behavior_witness :
    randomFragmenterCall 2 1 10 (fun _ => 0) (fun _ => 0) [demoTraj] =
      Except.error msgNoLongTrajectories ∧
    ∃ logs pairs,
      randomFragmenterCall 1 1 10 (fun _ => 0) (fun _ => 0) [demoTraj] =
        Except.ok (logs, pairs) ∧
      (((([demoTraj].filter (fun t => decide (1 ≤ trajLen t)))).map trajLen).sum <
          2 * 1 * 1 → msgFewerTransitions ∈ logs) :=
  ⟨(random_fragmenter_error_behavior 2 1 10 (fun _ => 0) (fun _ => 0) [demoTraj]).1
      (by intro t ht; simp only [List.mem_singleton] at ht; subst ht
          simp [demoTraj, trajLen]),
    (random_fragmenter_error_behavior 1 1 10 (fun _ => 0) (fun _ => 0) [demoTraj]).2
      ⟨demoTraj, List.mem_singleton.mpr rfl, by simp [demoTraj, trajLen]⟩⟩

/-! ### C8: the push contract of the preference dataset -/

/-- C8: for a nonempty batch of fragment pairs, `PreferenceDataset.push`
raises (leaving the dataset unchanged) whenever the preference array length
differs from the number of pairs or its numeric kind is not float32; when
both checks pass it appends, the dataset size grows by exactly the number of
pushed pairs, previously stored items are unchanged, and the new items are
retrievable after them in insertion order. -/
theorem preference_dataset_push_contract
    (ds : PreferenceDataset)
    (fragments : List (TrajectoryWithRew × TrajectoryWithRew))
    (preferences : NpArray) (hne : fragments ≠ []) (hwf : ds.wf) :
    ((preferences.data.length ≠ fragments.length ∨
        preferences.dtype ≠ NpDType.float32) →
      ∃ msg, ds.push fragments preferences = (ds, some msg)) ∧
    (preferences.data.length = fragments.length →
      preferences.dtype = NpDType.float32 →
      ds.push fragments preferences =
        ({ fragments1 := ds.fragments1 ++ fragments.map Prod.fst
           fragments2 := ds.fragments2 ++ fragments.map Prod.snd
           preferences := ds.preferences ++ preferences.data }, none) ∧
      (ds.push fragments preferences).1.size = ds.size + fragments.length ∧
      (∀ i < ds.size, (ds.push fragments preferences).1.getItem i = ds.getItem i) ∧
      (∀ j < fragments.length,
        (ds.push fragments preferences).1.getItem (ds.size + j) =
          (fragments.getD j (defaultTraj, defaultTraj),
            preferences.data.getD j 0))) := by
  have hlen0 : ¬fragments.length = 0 := by
    simpa [List.length_eq_zero] using hne
  obtain ⟨hwf1, hwf2⟩ := hwf
  constructor
  · intro h
    unfold PreferenceDataset.push
    rw [if_neg hlen0]
    by_cases hlen : preferences.data.length ≠ fragments.length
    · rw [if_pos hlen]
      exact ⟨msgShape, rfl⟩
    · rcases h with h | h
      · exact absurd h hlen
      · rw [if_neg hlen, if_pos h]
        exact ⟨msgDtype, rfl⟩
  · intro h1 h2
    have hpush : ds.push fragments preferences =
        ({ fragments1 := ds.fragments1 ++ fragments.map Prod.fst
           fragments2 := ds.fragments2 ++ fragments.map Prod.snd
           preferences := ds.preferences ++ preferences.data }, none) := by
      unfold PreferenceDataset.push
      rw [if_neg hlen0, if_neg (by simp [h1]), if_neg (by simp [h2])]
    refine ⟨hpush, ?_, ?_, ?_⟩
    · rw [hpush]
      simp [PreferenceDataset.size]
    · intro i hi
      rw [hpush]
      simp only [PreferenceDataset.getItem]
      rw [List.getD_append _ _ _ _ hi,
        List.getD_append _ _ _ _ (by rw [← hwf1]; exact hi),
        List.getD_append _ _ _ _ (by rw [← hwf2]; exact hi)]
    · intro j hj
      rw [hpush]
      simp only [PreferenceDataset.getItem, PreferenceDataset.size]
      rw [List.getD_append_right _ _ _ _ (by omega),
        List.getD_append_right _ _ _ _ (by omega),
        List.getD_append_right _ _ _ _ (by omega)]
      have e1 : ds.fragments1.length + j - ds.fragments1.length = j := by omega
      have e2 : ds.fragments1.length + j - ds.fragments2.length = j := by omega
      have e3 : ds.fragments1.length + j - ds.preferences.length = j := by omega
      rw [e1, e2, e3]
      have m1 : (fragments.map Prod.fst).getD j defaultTraj =
          (fragments.getD j (defaultTraj, defaultTraj)).1 := by
        simp only [List.getD_eq_getD_get?, List.get?_eq_getElem?, List.getElem?_map]
        cases fragments[j]? <;> rfl
      have m2 : (fragments.map Prod.snd).getD j defaultTraj =
          (fragments.getD j (defaultTraj, defaultTraj)).2 := by
        simp only [List.getD_eq_getD_get?, List.get?_eq_getElem?, List.getElem?_map]
        cases fragments[j]? <;> rfl
      rw [m1, m2]

/-- C8, witness: pushing one pair with a float64 preference array onto the
empty dataset raises and leaves the dataset unchanged. -/
theorem preference_dataset_push_contract_witness :
    ∃ msg, PreferenceDataset.empty.push [(defaultTraj, defaultTraj)]
        ⟨NpDType.float64, [(1 : ℝ) / 2]⟩ = (PreferenceDataset.empty, some msg) :=
  (preference_dataset_push_contract PreferenceDataset.empty
      [(defaultTraj, defaultTraj)] ⟨NpDType.float64, [(1 : ℝ) / 2]⟩
      (by simp) ⟨rfl, rfl⟩).1 (Or.inr (by simp))

/-! ### C10: push on an empty batch raises -/

/-- C10: `PreferenceDataset.push` called with an empty sequence of fragment
pairs raises (from unpacking `zip(*fragments)`) even though the empty
float32 preference array is length-matched, and the dataset is unchanged. -/
theorem push_empty_fragments_raises (ds : PreferenceDataset) :
    ds.push [] ⟨NpDType.float32, []⟩ = (ds, some msgUnpack) := rfl

/-! ### C9: the orchestrator loop only ever appends to the dataset -/

/-- The gatherer returns one probability per fragment pair. -/
theorem syntheticGathererCall_length (temperature discountFactor threshold : ℝ)
    (sample : Bool) (fragmentPairs : List (TrajectoryWithRew × TrajectoryWithRew))
    (rng : ℕ → ℝ) :
    (syntheticGathererCall temperature discountFactor threshold sample
      fragmentPairs rng).1.length = fragmentPairs.length := by
  unfold syntheticGathererCall
  split_ifs <;>
    simp [List.length_zipWith, List.length_map]

theorem dsExtends_refl (d : PreferenceDataset) : dsExtends d d :=
  ⟨⟨[], by simp⟩, ⟨[], by simp⟩, ⟨[], by simp⟩⟩

theorem dsExtends_trans {d3 d2 d1 : PreferenceDataset}
    (h32 : dsExtends d3 d2) (h21 : dsExtends d2 d1) : dsExtends d3 d1 := by
  obtain ⟨⟨a1, ha1⟩, ⟨a2, ha2⟩, ⟨a3, ha3⟩⟩ := h32
  obtain ⟨⟨b1, hb1⟩, ⟨b2, hb2⟩, ⟨b3, hb3⟩⟩ := h21
  exact ⟨⟨b1 ++ a1, by rw [ha1, hb1, List.append_assoc]⟩,
    ⟨b2 ++ a2, by rw [ha2, hb2, List.append_assoc]⟩,
    ⟨b3 ++ a3, by rw [ha3, hb3, List.append_assoc]⟩⟩

/-- A push whose three checks all pass appends and raises nothing. -/
theorem push_ok (ds : PreferenceDataset)
    (fragments : List (TrajectoryWithRew × TrajectoryWithRew))
    (preferences : NpArray) (hne : ¬fragments.length = 0)
    (h1 : preferences.data.length = fragments.length)
    (h2 : preferences.dtype = NpDType.float32) :
    ds.push fragments preferences =
      ({ fragments1 := ds.fragments1 ++ fragments.map Prod.fst
         fragments2 := ds.fragments2 ++ fragments.map Prod.snd
         preferences := ds.preferences ++ preferences.data }, none) := by
  unfold PreferenceDataset.push
  rw [if_neg hne, if_neg (by simp [h1]), if_neg (by simp [h2])]

/-- One orchestrator iteration on valid inputs raises nothing and appends
exactly `numPairs` new samples to the dataset. -/
theorem trainIteration_ok (fragmentLength numPairs warningThreshold : ℕ)
    (temperature discountFactor threshold : ℝ) (sample : Bool)
    (inp : IterationInput) (rng : ℕ → ℝ) (ds : PreferenceDataset)
    (hv : validIterInput fragmentLength inp) (hnp : 0 < numPairs) :
    ∃ ds2 rng2,
      trainIteration fragmentLength numPairs warningThreshold temperature
        discountFactor threshold sample inp rng ds = ((ds2, rng2), none) ∧
      ds2.size = ds.size + numPairs ∧ dsExtends ds2 ds := by
  have hcall := randomFragmenterCall_ok fragmentLength numPairs warningThreshold
    inp.pickTraj inp.pickStart inp.trajs hv
  set pairs := pairUp ((List.range (2 * numPairs)).map
    (drawFragment fragmentLength inp.pickTraj inp.pickStart
      (inp.trajs.filter (fun t => decide (fragmentLength ≤ trajLen t))))) with hpairs
  have hplen : pairs.length = numPairs := by
    rw [hpairs]
    exact pairUp_map_range_length numPairs _
  have hgl := syntheticGathererCall_length temperature discountFactor threshold
    sample pairs rng
  have hpush := push_ok ds pairs
    ⟨NpDType.float32, (syntheticGathererCall temperature discountFactor threshold
      sample pairs rng).1⟩ (by omega) hgl rfl
  refine ⟨(ds.push pairs ⟨NpDType.float32,
      (syntheticGathererCall temperature discountFactor threshold sample
        pairs rng).1⟩).1,
    (syntheticGathererCall temperature discountFactor threshold sample pairs rng).2,
    ?_, ?_, ?_⟩
  · simp only [trainIteration, hcall, hpush]
  · simp only [hpush, PreferenceDataset.size, List.length_append, List.length_map]
    omega
  · simp only [hpush]
    exact ⟨⟨pairs.map Prod.fst, rfl⟩, ⟨pairs.map Prod.snd, rfl⟩,
      ⟨(syntheticGathererCall temperature discountFactor threshold sample
        pairs rng).1, rfl⟩⟩

/-- Main induction for the orchestrator loop: no iteration raises, the
dataset grows by exactly `numPairs` per iteration, and every later state
extends every earlier one. -/
theorem trainLoop_spec (fragmentLength numPairs warningThreshold : ℕ)
    (temperature discountFactor threshold : ℝ) (sample : Bool)
    (hnp : 0 < numPairs) :
    ∀ (n : ℕ) (inputs : ℕ → IterationInput) (rng : ℕ → ℝ) (ds : PreferenceDataset),
      (∀ k, validIterInput fragmentLength (inputs k)) →
      (trainLoop fragmentLength numPairs warningThreshold temperature
          discountFactor threshold sample inputs rng ds n).2 = none ∧
      (trainLoop fragmentLength numPairs warningThreshold temperature
          discountFactor threshold sample inputs rng ds n).1.1.size =
        ds.size + n * numPairs ∧
      dsExtends (trainLoop fragmentLength numPairs warningThreshold temperature
          discountFactor threshold sample inputs rng ds n).1.1 ds ∧
      ∀ j ≤ n,
        (trainLoop fragmentLength numPairs warningThreshold temperature
            discountFactor threshold sample inputs rng ds j).2 = none ∧
        dsExtends (trainLoop fragmentLength numPairs warningThreshold temperature
            discountFactor threshold sample inputs rng ds n).1.1
          (trainLoop fragmentLength numPairs warningThreshold temperature
            discountFactor threshold sample inputs rng ds j).1.1 := by
  intro n
  induction n with
  | zero =>
    intro inputs rng ds _
    refine ⟨rfl, by simp [trainLoop], dsExtends_refl ds, ?_⟩
    intro j hj
    have hj0 : j = 0 := Nat.le_zero.mp hj
    subst hj0
    exact ⟨rfl, dsExtends_refl ds⟩
  | succ n ih =>
    intro inputs rng ds hv
    obtain ⟨ds2, rng2, hstep, hsize2, hext2⟩ := trainIteration_ok fragmentLength
      numPairs warningThreshold temperature discountFactor threshold sample
      (inputs 0) rng ds (hv 0) hnp
    have hloop : ∀ m, trainLoop fragmentLength numPairs warningThreshold
        temperature discountFactor threshold sample inputs rng ds (m + 1) =
        trainLoop fragmentLength numPairs warningThreshold temperature
          discountFactor threshold sample (fun i => inputs (i + 1)) rng2 ds2 m := by
      intro m
      simp only [trainLoop, hstep]
    have ihres := ih (fun i => inputs (i + 1)) rng2 ds2 (fun k => hv (k + 1))
    refine ⟨?_, ?_, ?_, ?_⟩
    · rw [hloop n]
      exact ihres.1
    · rw [hloop n, ihres.2.1, hsize2]
      ring
    · rw [hloop n]
      exact dsExtends_trans ihres.2.2.1 hext2
    · intro j hj
      cases j with
      | zero =>
        refine ⟨rfl, ?_⟩
        rw [hloop n]
        exact dsExtends_trans ihres.2.2.1 hext2
      | succ j =>
        rw [hloop j, hloop n]
        exact ihres.2.2.2 j (Nat.succ_le_succ_iff.mp hj)

/-- C9: starting from the empty dataset, the orchestrator loop never raises,
never removes or resets anything: after iteration `i` the dataset holds
exactly `i * numPairs` samples, and the dataset of iteration `i` extends the
dataset of every earlier iteration `j ≤ i` (a superset, strict when `j < i`
since sizes grow by `numPairs` each iteration). -/
theorem train_loop_dataset_growth (fragmentLength numPairs warningThreshold : ℕ)
    (temperature discountFactor threshold : ℝ) (sample : Bool)
    (inputs : ℕ → IterationInput) (rng : ℕ → ℝ)
    (hv : ∀ k, validIterInput fragmentLength (inputs k)) (hnp : 0 < numPairs)
    (i : ℕ) :
    (trainLoop fragmentLength numPairs warningThreshold temperature
        discountFactor threshold sample inputs rng PreferenceDataset.empty i).2 =
      none ∧
    (trainLoop fragmentLength numPairs warningThreshold temperature
        discountFactor threshold sample inputs rng
        PreferenceDataset.empty i).1.1.size = i * numPairs ∧
    ∀ j ≤ i,
      dsExtends (trainLoop fragmentLength numPairs warningThreshold temperature
          discountFactor threshold sample inputs rng
          PreferenceDataset.empty i).1.1
        (trainLoop fragmentLength numPairs warningThreshold temperature
          discountFactor threshold sample inputs rng
          PreferenceDataset.empty j).1.1 := by
  have h := trainLoop_spec fragmentLength numPairs warningThreshold temperature
    discountFactor threshold sample hnp i inputs rng PreferenceDataset.empty hv
  exact ⟨h.1, by simpa [PreferenceDataset.empty, PreferenceDataset.size] using h.2.1,
    fun j hj => (h.2.2.2 j hj).2⟩

/-- C9, witness: one iteration with one trajectory and one pair. -/
theorem train_loop_dataset_growth_witness :
    (trainLoop 1 1 10 1 1 50 false (fun _ => ⟨[demoTraj], fun _ => 0, fun _ => 0⟩)
        (fun _ => 0) PreferenceDataset.empty 1).2 = none ∧
    (trainLoop 1 1 10 1 1 50 false (fun _ => ⟨[demoTraj], fun _ => 0, fun _ => 0⟩)
        (fun _ => 0) PreferenceDataset.empty 1).1.1.size = 1 * 1 ∧
    ∀ j ≤ 1,
      dsExtends (trainLoop 1 1 10 1 1 50 false
          (fun _ => ⟨[demoTraj], fun _ => 0, fun _ => 0⟩)
          (fun _ => 0) PreferenceDataset.empty 1).1.1
        (trainLoop 1 1 10 1 1 50 false
          (fun _ => ⟨[demoTraj], fun _ => 0, fun _ => 0⟩)
          (fun _ => 0) PreferenceDataset.empty j).1.1 :=
  train_loop_dataset_growth 1 1 10 1 1 50 false
    (fun _ => ⟨[demoTraj], fun _ => 0, fun _ => 0⟩) (fun _ => 0)
    (fun _ => ⟨demoTraj, List.mem_singleton.mpr rfl, by simp [demoTraj, trajLen]⟩)
    (by norm_num) 1

/-- C7, witness at a single pair of empty-reward fragments, temperature 1. -/
theorem synthetic_gatherer_probability_form_witness :
    (syntheticGathererCall 1 1 50 false [(defaultTraj, defaultTraj)]
        (fun _ => 0)).1 =
      [(defaultTraj, defaultTraj)].map (fun p => 1 / (1 + Real.exp (clip
        ((compute_returns p.2.rews 1 - compute_returns p.1.rews 1) / 1)
        (-50) 50))) ∧
    ∀ x ∈ (syntheticGathererCall 1 1 50 false [(defaultTraj, defaultTraj)]
        (fun _ => 0)).1, 0 < x ∧ x < 1 :=
  synthetic_gatherer_probability_form 1 1 50 (by norm_num)
    [(defaultTraj, defaultTraj)] (fun _ => 0)
